import Mathlib

/-!
Verification of `Scripts/patch-openapi-spec.py`.

The script loads a JSON document, removes `"additionalProperties": false`
from a fixed allow-list of schema entries under `components.schemas`,
writes the document back, and prints a one-line summary.

We shallowly embed the script over a JSON value type.  Python dictionaries
produced by `json.load` have unique string keys and no shared substructure,
so they are modelled as association lists and the script's in-place
mutation of `spec["components"]["schemas"]` is modelled by functional
write-back along that access path.  Python exceptions (`AttributeError`
from calling `.get` on a non-dict, `TypeError` from `in` on a
non-container or from subscripting a `str`/`list` with a string key,
`KeyError` from a missing dict key) are modelled with `Except`.
JSON numbers are modelled as integers: no claim depends on fractional
values, and Python's `x == False` test is captured exactly on integers
(`0 == False` is `True` in Python since `bool` is a subclass of `int`).
-/

/-- A JSON value, as produced by Python's `json.load`. -/
inductive Json where
  | null
  | bool (b : Bool)
  | num (n : Int)
  | str (s : String)
  | arr (elems : List Json)
  | obj (fields : List (String × Json))

/-- First-occurrence key lookup in an association list, the model of
Python dictionary lookup (keys from `json.load` are unique). -/
def lookup? : List (String × Json) → String → Option Json
  | [], _ => none
  | (k, v) :: rest, key => if k = key then some v else lookup? rest key

/-- Replace the value at the first occurrence of a key, the model of
in-place mutation of one value of a Python dictionary. -/
def setKey : List (String × Json) → String → Json → List (String × Json)
  | [], _, _ => []
  | (k, v) :: rest, key, w => if k = key then (k, w) :: rest else (k, v) :: setKey rest key w

/-- Remove every binding of a key, the model of Python's `del d[key]`
(coincides with removing the unique binding on `json.load` output). -/
def eraseKey : List (String × Json) → String → List (String × Json)
  | [], _ => []
  | (k, v) :: rest, key => if k = key then eraseKey rest key else (k, v) :: eraseKey rest key

/-- Is this JSON value an object (a Python dict)? -/
def Json.isObj : Json → Bool
  | Json.obj _ => true
  | _ => false

/-- The Python exceptions the script can raise while patching. -/
inductive PyErr where
  | attributeError
  | typeError
  | keyError
deriving DecidableEq

/-- Is `needle` a prefix of `hay`? (character lists) -/
def charsPrefixOf : List Char → List Char → Bool
  | [], _ => true
  | _ :: _, [] => false
  | a :: as, b :: bs => a == b && charsPrefixOf as bs

/-- Is `needle` a contiguous infix of `hay`? (character lists) -/
def charsInfixOf : List Char → List Char → Bool
  | needle, [] => needle.isEmpty
  | needle, c :: rest => charsPrefixOf needle (c :: rest) || charsInfixOf needle rest

/-- Python's substring test `needle in hay` on strings. -/
def strIn (needle hay : String) : Bool :=
  charsInfixOf needle.toList hay.toList

/-- Python's `k in xs` for a list `xs` and a string `k`: some element
compares equal to the string (in Python a string equals only an equal
string, never a number, boolean, list, dict or `None`). -/
def listHasStr (k : String) : List Json → Bool
  | [] => false
  | Json.str s :: rest => s == k || listHasStr k rest
  | _ :: rest => listHasStr k rest

/-- Python `v.get(key, default)`: only dicts have `.get`; anything else
raises `AttributeError`. -/
def pyGetD (v : Json) (key : String) (default : Json) : Except PyErr Json :=
  match v with
  | Json.obj fs => Except.ok ((lookup? fs key).getD default)
  | _ => Except.error PyErr.attributeError

/-- Python `key in v` for a string `key`: dict key membership, substring
test on strings, element equality on lists; `TypeError` on `int`, `bool`
and `None` (not iterable). -/
def pyContains (key : String) (v : Json) : Except PyErr Bool :=
  match v with
  | Json.obj fs => Except.ok (lookup? fs key).isSome
  | Json.str s => Except.ok (strIn key s)
  | Json.arr xs => Except.ok (listHasStr key xs)
  | _ => Except.error PyErr.typeError

/-- Python `v[key]` for a string `key`: dict indexing (`KeyError` when
absent); `TypeError` for `str`/`list` (indices must be integers) and for
every non-subscriptable value. -/
def pySubscript (v : Json) (key : String) : Except PyErr Json :=
  match v with
  | Json.obj fs =>
    match lookup? fs key with
    | some x => Except.ok x
    | none => Except.error PyErr.keyError
  | _ => Except.error PyErr.typeError

/-- Python `v == False`: true exactly for the boolean `False` and for
numbers equal to zero (`bool` is a subclass of `int`, so `0 == False`);
`None`, strings, lists and dicts never compare equal to `False`. -/
def pyEqFalse : Json → Bool
  | Json.bool b => !b
  | Json.num n => n = 0
  | _ => false

/-- `schema.get("additionalProperties") == False`: a missing key yields
Python `None`, and `None == False` is `False`. -/
def condVal : Option Json → Bool
  | some v => pyEqFalse v
  | none => false

/-- Update the value at a key of a JSON object, identity elsewhere
(only ever reached on objects). -/
def setInObj (schemas : Json) (key : String) (v : Json) : Json :=
  match schemas with
  | Json.obj fs => Json.obj (setKey fs key v)
  | s => s

/-- One iteration of the script's loop body (lines 43-47 of
`patch-openapi-spec.py`) on the current `schemas` value:
`if schema_name in schemas: schema = schemas[schema_name];
if schema.get("additionalProperties") == False:
del schema["additionalProperties"]; patched.append(schema_name)`.
Returns the updated `schemas` and whether the name was recorded. -/
def patchOne (schemas : Json) (name : String) : Except PyErr (Json × Bool) :=
  match pyContains name schemas with
  | Except.error e => Except.error e
  | Except.ok false => Except.ok (schemas, false)
  | Except.ok true =>
    match pySubscript schemas name with
    | Except.error e => Except.error e
    | Except.ok schema =>
      match schema with
      | Json.obj g =>
        if condVal (lookup? g "additionalProperties") then
          Except.ok (setInObj schemas name (Json.obj (eraseKey g "additionalProperties")), true)
        else
          Except.ok (schemas, false)
      | _ => Except.error PyErr.attributeError

/-- The loop `for schema_name in SCHEMAS_TO_PATCH` threading the mutable
`schemas` value, collecting the `patched` names in iteration order. -/
def runNames : List String → Json → Except PyErr (Json × List String)
  | [], s => Except.ok (s, [])
  | n :: ns, s =>
    match patchOne s n with
    | Except.error e => Except.error e
    | Except.ok (s', b) =>
      match runNames ns s' with
      | Except.error e => Except.error e
      | Except.ok (s'', ps) => Except.ok (s'', if b then n :: ps else ps)

/-- The fixed allow-list `SCHEMAS_TO_PATCH` of the script. -/
def SCHEMAS_TO_PATCH : List String :=
  ["AIIdentificationInput", "IdentificationDataInput", "CardDetailsInput",
   "IdentifyCardResponseInput"]

/-- The summary line the script prints: the comma-joined patched names
when any, a fixed message otherwise. -/
def summary (patched : List String) : String :=
  if patched.isEmpty then "No schemas needed patching"
  else "Patched schemas: " ++ String.intercalate ", " patched

/-- Write the possibly mutated `schemas` value back into the document.
In Python the loop mutates `spec["components"]["schemas"]` through an
alias, so the mutation is visible in `spec` exactly when both keys are
present; when either `.get` fell back to a fresh `{}` the document is
untouched. -/
def writeBack (spec schemas : Json) : Json :=
  match spec with
  | Json.obj sfs =>
    match lookup? sfs "components" with
    | some (Json.obj c) =>
      match lookup? c "schemas" with
      | some _ => Json.obj (setKey sfs "components" (Json.obj (setKey c "schemas" schemas)))
      | none => Json.obj sfs
    | _ => Json.obj sfs
  | s => s

/-- The result of a successful `patch_spec` run: the document written
back to the file, the `patched` list, the printed summary line, and the
Python return value of the function (the function body has no `return`
statement, so it returns `None`, modelled as `Option.none`). -/
structure PatchResult where
  newSpec : Json
  patched : List String
  output : String
  ret : Option (List String)

/-- `patch_spec` on an already loaded document (lines 39-55 of
`patch-openapi-spec.py`):
`schemas = spec.get("components", {}).get("schemas", {})`, the loop over
`SCHEMAS_TO_PATCH`, the write-back of the mutated document, and the
summary print. -/
def patch_spec (spec : Json) : Except PyErr PatchResult :=
  match pyGetD spec "components" (Json.obj []) with
  | Except.error e => Except.error e
  | Except.ok components =>
    match pyGetD components "schemas" (Json.obj []) with
    | Except.error e => Except.error e
    | Except.ok schemas =>
      match runNames SCHEMAS_TO_PATCH schemas with
      | Except.error e => Except.error e
      | Except.ok (schemas', patched) =>
        Except.ok
          { newSpec := writeBack spec schemas'
            patched := patched
            output := summary patched
            ret := none }

/-- Why loading the file can fail before any document exists. -/
inductive LoadErr where
  | fileNotFound
  | unreadable
  | parseError

/-- Outcome of one process run on an already-opened file. -/
inductive ProcOutcome where
  | loadFailure
  | patchError (e : PyErr)
  | completed (r : PatchResult)

/-- Process exit status: an uncaught Python exception exits non-zero. -/
def exitCode : ProcOutcome → Nat
  | ProcOutcome.loadFailure => 1
  | ProcOutcome.patchError _ => 1
  | ProcOutcome.completed _ => 0

/-- A whole run of `patch_spec` with the file state made explicit: the
script reads and parses the file first and opens it for writing only
after the loop finished, so on a load failure or a loop exception the
file keeps its previous contents. Returns the file state after the run
and the outcome. -/
def runProcess (file : Except LoadErr Json) : Except LoadErr Json × ProcOutcome :=
  match file with
  | Except.error e => (Except.error e, ProcOutcome.loadFailure)
  | Except.ok spec =>
    match patch_spec spec with
    | Except.error pe => (Except.ok spec, ProcOutcome.patchError pe)
    | Except.ok r => (Except.ok r.newSpec, ProcOutcome.completed r)

/-- The usage line printed on a wrong argument count. -/
def usageMsg : String :=
  "Usage: patch-openapi-spec.py <path-to-openapi.json>"

/-- Result of the `__main__` block: either the usage error (printed
message and exit status, before any file access) or a full run. -/
inductive MainResult where
  | usage (printed : String) (code : Nat)
  | ran (outcome : ProcOutcome)

/-- The `__main__` block: `sys.argv` (program name included) must have
length 2, otherwise print the usage line and exit 1 without touching the
file; else run `patch_spec` on the file. Returns the file state after
the invocation and the result. -/
def mainModel (argv : List String) (file : Except LoadErr Json) :
    Except LoadErr Json × MainResult :=
  if argv.length = 2 then
    match runProcess file with
    | (file', out) => (file', MainResult.ran out)
  else
    (file, MainResult.usage usageMsg 1)

/-! ### Specification-level description of the loop's effect -/

/-- The entry for a name is absent or an object; the loop raises
`AttributeError` on the first allow-listed name bound to a non-object. -/
def entryOk (fs : List (String × Json)) (n : String) : Bool :=
  match lookup? fs n with
  | some (Json.obj _) => true
  | some _ => false
  | none => true

/-- All allow-listed entries are absent or objects. -/
def entriesOk (ns : List String) (fs : List (String × Json)) : Bool :=
  ns.all (entryOk fs)

/-- The mutation applied to a matching schema entry. -/
def patchEntry (g : List (String × Json)) : List (String × Json) :=
  eraseKey g "additionalProperties"

/-- Does the loop record this name: it is bound to an object whose
`additionalProperties` value compares Python-equal to `False`. -/
def shouldPatch (fs : List (String × Json)) (n : String) : Bool :=
  match lookup? fs n with
  | some (Json.obj g) => condVal (lookup? g "additionalProperties")
  | _ => false

/-- Pure description of the loop on an object-valued `schemas`: the
updated association list and the recorded names in iteration order. -/
def patchKeys : List String → List (String × Json) → List (String × Json) × List String
  | [], fs => (fs, [])
  | n :: ns, fs =>
    match lookup? fs n with
    | some (Json.obj g) =>
      if condVal (lookup? g "additionalProperties") then
        let r := patchKeys ns (setKey fs n (Json.obj (patchEntry g)))
        (r.1, n :: r.2)
      else patchKeys ns fs
    | _ => patchKeys ns fs

/-! ### Concrete documents used as counterexamples and witnesses -/

/-- A `CardDetailsInput` entry whose `additionalProperties` is the JSON
number `0` (not a boolean). -/
def zeroEntry : List (String × Json) :=
  [("additionalProperties", Json.num 0), ("type", Json.str "object")]

def zeroSchemas : List (String × Json) := [("CardDetailsInput", Json.obj zeroEntry)]

def zeroComponents : List (String × Json) := [("schemas", Json.obj zeroSchemas)]

def zeroRoot : List (String × Json) := [("components", Json.obj zeroComponents)]

/-- A document whose only allow-listed entry carries
`"additionalProperties": 0`. -/
def zeroDoc : Json := Json.obj zeroRoot

def zeroDocPatched : Json :=
  Json.obj [("components", Json.obj [("schemas", Json.obj
    [("CardDetailsInput", Json.obj [("type", Json.str "object")])])])]

/-- What `patch_spec` produces on `zeroDoc`. -/
def zeroResult : PatchResult :=
  { newSpec := zeroDocPatched
    patched := ["CardDetailsInput"]
    output := "Patched schemas: CardDetailsInput"
    ret := none }

/-- The spec's worked scenario: `CardDetailsInput` with
`"additionalProperties": false` and a `type` field. -/
def scenarioEntry : List (String × Json) :=
  [("additionalProperties", Json.bool false), ("type", Json.str "object")]

def scenarioSchemas : List (String × Json) := [("CardDetailsInput", Json.obj scenarioEntry)]

def scenarioComponents : List (String × Json) := [("schemas", Json.obj scenarioSchemas)]

def scenarioRoot : List (String × Json) := [("components", Json.obj scenarioComponents)]

def scenarioDoc : Json := Json.obj scenarioRoot

def scenarioDocPatched : Json :=
  Json.obj [("components", Json.obj [("schemas", Json.obj
    [("CardDetailsInput", Json.obj [("type", Json.str "object")])])])]

/-- What `patch_spec` produces on `scenarioDoc`. -/
def scenarioResult : PatchResult :=
  { newSpec := scenarioDocPatched
    patched := ["CardDetailsInput"]
    output := "Patched schemas: CardDetailsInput"
    ret := none }

/-- A root object with no `components` key. -/
def plainRoot : List (String × Json) := [("openapi", Json.str "3.1.0")]

/-- A root whose `components` value is a number, not an object. -/
def badComponentsRoot : List (String × Json) := [("components", Json.num 5)]

/-- A root whose `components.schemas` value is `null`. -/
def badSchemasNullRoot : List (String × Json) :=
  [("components", Json.obj [("schemas", Json.null)])]

/-- A root whose `components.schemas` value is a string. -/
def strSchemasRoot : List (String × Json) :=
  [("components", Json.obj [("schemas", Json.str "hello")])]

/-- A root whose `components.schemas` value is an array. -/
def arrSchemasRoot : List (String × Json) :=
  [("components", Json.obj [("schemas", Json.arr [Json.str "Pet"])])]

/-- A root whose allow-listed schema entry is a boolean, not an object. -/
def badEntryRoot : List (String × Json) :=
  [("components", Json.obj [("schemas", Json.obj
    [("CardDetailsInput", Json.bool true)])])]

/-! ### Accessors used to state the claims -/

/-- Value at a key of a document's root object (`none` off objects). -/
def getField (spec : Json) (k : String) : Option Json :=
  match spec with
  | Json.obj sfs => lookup? sfs k
  | _ => none

/-- Value at a key of the document's `components` object. -/
def getComponentsField (spec : Json) (k : String) : Option Json :=
  match getField spec "components" with
  | some (Json.obj c) => lookup? c k
  | _ => none

/-- The schema entry bound to `n` under `components.schemas`. -/
def getSchema (spec : Json) (n : String) : Option Json :=
  match getComponentsField spec "schemas" with
  | some (Json.obj fs) => lookup? fs n
  | _ => none

/-- A field of the schema entry bound to `n` under `components.schemas`. -/
def getSchemaField (spec : Json) (n k : String) : Option Json :=
  match getSchema spec n with
  | some (Json.obj g) => lookup? g k
  | _ => none

/-! ### Association list lemmas -/

theorem lookup_setKey_self {fs : List (String × Json)} {k : String}
    (h : (lookup? fs k).isSome) (v : Json) :
    lookup? (setKey fs k v) k = some v := by
  induction fs with
  | nil => simp [lookup?] at h
  | cons p rest ih =>
    obtain ⟨a, b⟩ := p
    by_cases hk : a = k
    · simp [setKey, lookup?, hk]
    · simp [setKey, lookup?, hk] at h ⊢
      exact ih h

theorem lookup_setKey_ne {fs : List (String × Json)} {k k' : String} (v : Json)
    (h : k' ≠ k) :
    lookup? (setKey fs k v) k' = lookup? fs k' := by
  induction fs with
  | nil => simp [setKey]
  | cons p rest ih =>
    obtain ⟨a, b⟩ := p
    by_cases hk : a = k
    · subst hk
      have ha : ¬ a = k' := fun hh => h hh.symm
      simp [setKey, lookup?, ha]
    · by_cases hk' : a = k'
      · simp [setKey, lookup?, hk, hk', h]
      · simp [setKey, lookup?, hk, hk', ih]

theorem setKey_self {fs : List (String × Json)} {k : String} {v : Json}
    (h : lookup? fs k = some v) : setKey fs k v = fs := by
  induction fs with
  | nil => simp [setKey]
  | cons p rest ih =>
    obtain ⟨a, b⟩ := p
    by_cases hk : a = k
    · simp [lookup?, hk] at h
      simp [setKey, hk, h]
    · simp [lookup?, hk] at h
      simp [setKey, hk, ih h]

theorem lookup_eraseKey_self (g : List (String × Json)) (k : String) :
    lookup? (eraseKey g k) k = none := by
  induction g with
  | nil => simp [eraseKey, lookup?]
  | cons p rest ih =>
    obtain ⟨a, b⟩ := p
    by_cases hk : a = k
    · simpa [eraseKey, hk] using ih
    · simpa [eraseKey, hk, lookup?] using ih

theorem lookup_eraseKey_ne {g : List (String × Json)} {k k' : String}
    (h : k' ≠ k) :
    lookup? (eraseKey g k) k' = lookup? g k' := by
  induction g with
  | nil => simp [eraseKey]
  | cons p rest ih =>
    obtain ⟨a, b⟩ := p
    by_cases hk : a = k
    · subst hk
      have ha : ¬ a = k' := fun hh => h hh.symm
      simpa [eraseKey, lookup?, ha] using ih
    · by_cases hk' : a = k'
      · simp [eraseKey, lookup?, hk, hk', h]
      · simpa [eraseKey, lookup?, hk, hk'] using ih

theorem eraseKey_length_le (g : List (String × Json)) (k : String) :
    (eraseKey g k).length ≤ g.length := by
  induction g with
  | nil => simp [eraseKey]
  | cons p rest ih =>
    obtain ⟨a, b⟩ := p
    by_cases hk : a = k
    · simp only [eraseKey, hk, if_pos]
      exact Nat.le_succ_of_le ih
    · simp only [eraseKey, hk, if_neg, not_false_iff, List.length_cons]
      exact Nat.succ_le_succ ih

theorem eraseKey_length_lt {g : List (String × Json)} {k : String}
    (h : (lookup? g k).isSome) : (eraseKey g k).length < g.length := by
  induction g with
  | nil => simp [lookup?] at h
  | cons p rest ih =>
    obtain ⟨a, b⟩ := p
    by_cases hk : a = k
    · simp only [eraseKey, hk, if_pos, List.length_cons]
      exact Nat.lt_succ_of_le (eraseKey_length_le rest k)
    · simp [lookup?, hk] at h
      simp only [eraseKey, hk, if_neg, not_false_iff, List.length_cons]
      exact Nat.succ_lt_succ (ih h)

theorem eraseKey_ne_self {g : List (String × Json)} {k : String}
    (h : (lookup? g k).isSome) : eraseKey g k ≠ g := by
  intro heq
  have := eraseKey_length_lt h
  rw [heq] at this
  exact Nat.lt_irrefl _ this

theorem condVal_isSome {o : Option Json} (h : condVal o = true) : o.isSome := by
  cases o with
  | none => simp [condVal] at h
  | some v => rfl

/-! ### Reduction lemmas for one loop iteration -/

theorem patchOne_obj_none {fs : List (String × Json)} {n : String}
    (h : lookup? fs n = none) :
    patchOne (Json.obj fs) n = Except.ok (Json.obj fs, false) := by
  simp [patchOne, pyContains, h]

theorem patchOne_obj_obj {fs g : List (String × Json)} {n : String}
    (h : lookup? fs n = some (Json.obj g)) :
    patchOne (Json.obj fs) n =
      if condVal (lookup? g "additionalProperties") then
        Except.ok (Json.obj (setKey fs n (Json.obj (patchEntry g))), true)
      else Except.ok (Json.obj fs, false) := by
  simp [patchOne, pyContains, pySubscript, h, setInObj, patchEntry]

theorem patchOne_obj_bad {fs : List (String × Json)} {n : String} {v : Json}
    (h : lookup? fs n = some v) (hv : v.isObj = false) :
    patchOne (Json.obj fs) n = Except.error PyErr.attributeError := by
  cases v <;> simp_all [patchOne, pyContains, pySubscript, Json.isObj]

theorem patchOne_nonobj {s : Json} {n : String} {p : Json × Bool}
    (hs : s.isObj = false) (h : patchOne s n = Except.ok p) : p = (s, false) := by
  cases s with
  | null => simp [patchOne, pyContains] at h
  | bool b => simp [patchOne, pyContains] at h
  | num m => simp [patchOne, pyContains] at h
  | str x =>
    cases hb : strIn n x <;> simp [patchOne, pyContains, pySubscript, hb] at h
    exact h.symm
  | arr xs =>
    cases hb : listHasStr n xs <;> simp [patchOne, pyContains, pySubscript, hb] at h
    exact h.symm
  | obj fs => simp [Json.isObj] at hs

/-! ### Stability lemmas -/

theorem entryOk_setKey {fs : List (String × Json)} {n : String} (m : String)
    (hn : (lookup? fs n).isSome) (hh : List (String × Json)) :
    entryOk (setKey fs n (Json.obj hh)) m =
      if m = n then true else entryOk fs m := by
  by_cases hm : m = n
  · subst hm
    simp [entryOk, lookup_setKey_self hn]
  · simp [entryOk, lookup_setKey_ne _ hm, hm]

theorem entriesOk_setKey {ns : List String} {fs : List (String × Json)} {n : String}
    {g : List (String × Json)} (hg : lookup? fs n = some (Json.obj g))
    (hh : List (String × Json)) :
    entriesOk ns (setKey fs n (Json.obj hh)) = entriesOk ns fs := by
  induction ns with
  | nil => rfl
  | cons m ns ih =>
    simp only [entriesOk, List.all_cons] at *
    rw [ih]
    have hsome : (lookup? fs n).isSome := by simp [hg]
    rw [entryOk_setKey m hsome hh]
    by_cases hm : m = n
    · subst hm
      simp [entryOk, hg]
    · simp [hm]

theorem shouldPatch_setKey_ne {fs : List (String × Json)} {n m : String}
    (v : Json) (h : m ≠ n) :
    shouldPatch (setKey fs n v) m = shouldPatch fs m := by
  simp [shouldPatch, lookup_setKey_ne v h]

/-! ### Loop characterization -/

theorem runNames_cons_step {n : String} {ns : List String} {s s' : Json} {b : Bool}
    (hp : patchOne s n = Except.ok (s', b)) :
    runNames (n :: ns) s =
      match runNames ns s' with
      | Except.error e => Except.error e
      | Except.ok (s'', ps) => Except.ok (s'', if b then n :: ps else ps) := by
  rw [runNames, hp]

theorem runNames_cons_err {n : String} {ns : List String} {s : Json} {e : PyErr}
    (hp : patchOne s n = Except.error e) :
    runNames (n :: ns) s = Except.error e := by
  rw [runNames, hp]

theorem runNames_ok (ns : List String) (fs : List (String × Json))
    (h : entriesOk ns fs = true) :
    runNames ns (Json.obj fs) =
      Except.ok (Json.obj (patchKeys ns fs).1, (patchKeys ns fs).2) := by
  induction ns generalizing fs with
  | nil => rfl
  | cons n ns ih =>
    simp only [entriesOk, List.all_cons, Bool.and_eq_true] at h
    obtain ⟨hn, hns⟩ := h
    cases hl : lookup? fs n with
    | none =>
      rw [runNames_cons_step (patchOne_obj_none hl), ih fs hns]
      simp [patchKeys, hl]
    | some v =>
      cases v with
      | obj g =>
        by_cases hc : condVal (lookup? g "additionalProperties") = true
        · have hp : patchOne (Json.obj fs) n =
              Except.ok (Json.obj (setKey fs n (Json.obj (patchEntry g))), true) := by
            rw [patchOne_obj_obj hl, if_pos hc]
          have hok' : entriesOk ns (setKey fs n (Json.obj (patchEntry g))) = true := by
            rw [entriesOk_setKey hl]
            exact hns
          rw [runNames_cons_step hp, ih _ hok']
          simp [patchKeys, hl, hc]
        · have hp : patchOne (Json.obj fs) n = Except.ok (Json.obj fs, false) := by
            rw [patchOne_obj_obj hl, if_neg hc]
          rw [runNames_cons_step hp, ih fs hns]
          simp [patchKeys, hl, hc]
      | null => simp [entryOk, hl] at hn
      | bool b => simp [entryOk, hl] at hn
      | num m => simp [entryOk, hl] at hn
      | str s => simp [entryOk, hl] at hn
      | arr xs => simp [entryOk, hl] at hn

theorem runNames_err (ns : List String) (fs : List (String × Json))
    (h : entriesOk ns fs = false) :
    runNames ns (Json.obj fs) = Except.error PyErr.attributeError := by
  induction ns generalizing fs with
  | nil => simp [entriesOk] at h
  | cons n ns ih =>
    simp only [entriesOk, List.all_cons, Bool.and_eq_false_iff] at h
    cases hl : lookup? fs n with
    | none =>
      have hns : entriesOk ns fs = false := by
        rcases h with h | h
        · simp [entryOk, hl] at h
        · exact h
      rw [runNames_cons_step (patchOne_obj_none hl), ih fs hns]
    | some v =>
      cases v with
      | obj g =>
        have hns : entriesOk ns fs = false := by
          rcases h with h | h
          · simp [entryOk, hl] at h
          · exact h
        by_cases hc : condVal (lookup? g "additionalProperties") = true
        · have hp : patchOne (Json.obj fs) n =
              Except.ok (Json.obj (setKey fs n (Json.obj (patchEntry g))), true) := by
            rw [patchOne_obj_obj hl, if_pos hc]
          have hns' : entriesOk ns (setKey fs n (Json.obj (patchEntry g))) = false := by
            rw [entriesOk_setKey hl]
            exact hns
          rw [runNames_cons_step hp, ih _ hns']
        · have hp : patchOne (Json.obj fs) n = Except.ok (Json.obj fs, false) := by
            rw [patchOne_obj_obj hl, if_neg hc]
          rw [runNames_cons_step hp, ih fs hns]
      | null => rw [runNames_cons_err (patchOne_obj_bad hl rfl)]
      | bool b => rw [runNames_cons_err (patchOne_obj_bad hl rfl)]
      | num m => rw [runNames_cons_err (patchOne_obj_bad hl rfl)]
      | str s => rw [runNames_cons_err (patchOne_obj_bad hl rfl)]
      | arr xs => rw [runNames_cons_err (patchOne_obj_bad hl rfl)]

theorem runNames_nonobj {ns : List String} {s : Json}
    (hs : s.isObj = false) :
    ∀ {out : Json × List String}, runNames ns s = Except.ok out → out = (s, []) := by
  induction ns with
  | nil =>
    intro out h
    rw [runNames] at h
    exact (Except.ok.inj h).symm
  | cons n ns ih =>
    intro out h
    cases hp : patchOne s n with
    | error e =>
      rw [runNames_cons_err hp] at h
      exact absurd h (by simp)
    | ok p =>
      obtain ⟨s', b⟩ := p
      have hps := patchOne_nonobj hs hp
      rw [Prod.mk.injEq] at hps
      obtain ⟨hs', hb⟩ := hps
      rw [hs', hb] at hp
      rw [runNames_cons_step hp] at h
      cases hr : runNames ns s with
      | error e =>
        rw [hr] at h
        exact absurd h (by simp)
      | ok q =>
        rw [hr] at h
        have hq := ih hr
        subst hq
        simpa using (Except.ok.inj h).symm

/-! ### The effect of the loop on individual entries -/

theorem lookup_patchKeys_notMem {ns : List String} {fs : List (String × Json)} {k : String}
    (h : k ∉ ns) :
    lookup? (patchKeys ns fs).1 k = lookup? fs k := by
  induction ns generalizing fs with
  | nil => rfl
  | cons n ns ih =>
    have hkn : k ≠ n := fun he => h (he ▸ List.mem_cons_self n ns)
    have hns : k ∉ ns := fun hm => h (List.mem_cons_of_mem n hm)
    cases hl : lookup? fs n with
    | none => simp [patchKeys, hl, ih hns]
    | some v =>
      cases v with
      | obj g =>
        by_cases hc : condVal (lookup? g "additionalProperties") = true
        · simp only [patchKeys, hl, if_pos hc]
          rw [ih hns, lookup_setKey_ne _ hkn]
        · simp [patchKeys, hl, hc, ih hns]
      | null => simp [patchKeys, hl, ih hns]
      | bool b => simp [patchKeys, hl, ih hns]
      | num m => simp [patchKeys, hl, ih hns]
      | str s => simp [patchKeys, hl, ih hns]
      | arr xs => simp [patchKeys, hl, ih hns]

theorem lookup_patchKeys_mem {ns : List String} {fs : List (String × Json)} {n : String}
    (hnd : ns.Nodup) (hn : n ∈ ns) :
    lookup? (patchKeys ns fs).1 n =
      match lookup? fs n with
      | some (Json.obj g) =>
        some (Json.obj (if condVal (lookup? g "additionalProperties") then patchEntry g else g))
      | o => o := by
  induction ns generalizing fs with
  | nil => cases hn
  | cons m ns ih =>
    rcases List.mem_cons.mp hn with he | hm
    · subst he
      have hnot : n ∉ ns := (List.nodup_cons.mp hnd).1
      cases hl : lookup? fs n with
      | none => simp [patchKeys, hl, lookup_patchKeys_notMem hnot]
      | some v =>
        cases v with
        | obj g =>
          by_cases hc : condVal (lookup? g "additionalProperties") = true
          · simp only [patchKeys, hl, if_pos hc]
            rw [lookup_patchKeys_notMem hnot,
              lookup_setKey_self (by simp [hl]) _]
          · simp only [patchKeys, hl, if_neg hc]
            rw [lookup_patchKeys_notMem hnot, hl]
        | null => simp [patchKeys, hl, lookup_patchKeys_notMem hnot]
        | bool b => simp [patchKeys, hl, lookup_patchKeys_notMem hnot]
        | num mm => simp [patchKeys, hl, lookup_patchKeys_notMem hnot]
        | str s => simp [patchKeys, hl, lookup_patchKeys_notMem hnot]
        | arr xs => simp [patchKeys, hl, lookup_patchKeys_notMem hnot]
    · have hnd' := (List.nodup_cons.mp hnd).2
      have hne : n ≠ m := by
        intro he
        exact (List.nodup_cons.mp hnd).1 (he ▸ hm)
      cases hl : lookup? fs m with
      | none => simp only [patchKeys, hl]; exact ih hnd' hm
      | some v =>
        cases v with
        | obj g =>
          by_cases hc : condVal (lookup? g "additionalProperties") = true
          · simp only [patchKeys, hl, if_pos hc]
            rw [ih hnd' hm, lookup_setKey_ne _ hne]
          · simp only [patchKeys, hl, if_neg hc]
            exact ih hnd' hm
        | null => simp only [patchKeys, hl]; exact ih hnd' hm
        | bool b => simp only [patchKeys, hl]; exact ih hnd' hm
        | num mm => simp only [patchKeys, hl]; exact ih hnd' hm
        | str s => simp only [patchKeys, hl]; exact ih hnd' hm
        | arr xs => simp only [patchKeys, hl]; exact ih hnd' hm

theorem patched_patchKeys {ns : List String} {fs : List (String × Json)}
    (hnd : ns.Nodup) :
    (patchKeys ns fs).2 = ns.filter (shouldPatch fs) := by
  induction ns generalizing fs with
  | nil => rfl
  | cons n ns ih =>
    have hnd' := (List.nodup_cons.mp hnd).2
    have hnot : n ∉ ns := (List.nodup_cons.mp hnd).1
    cases hl : lookup? fs n with
    | none =>
      have hsp : shouldPatch fs n = false := by simp [shouldPatch, hl]
      simp [patchKeys, hl, List.filter_cons, hsp, ih hnd']
    | some v =>
      cases v with
      | obj g =>
        by_cases hc : condVal (lookup? g "additionalProperties") = true
        · have hsp : shouldPatch fs n = true := by simp [shouldPatch, hl, hc]
          simp only [patchKeys, hl, if_pos hc, List.filter_cons, hsp, if_true]
          rw [ih hnd']
          congr 1
          apply List.filter_congr
          intro m hm
          have hne : m ≠ n := fun he => hnot (he ▸ hm)
          rw [shouldPatch_setKey_ne _ hne]
        · have hsp : shouldPatch fs n = false := by
            simp [shouldPatch, hl]
            exact Bool.not_eq_true _ ▸ (Bool.eq_false_iff.mpr hc)
          simp [patchKeys, hl, hc, List.filter_cons, hsp, ih hnd']
      | null =>
        have hsp : shouldPatch fs n = false := by simp [shouldPatch, hl]
        simp [patchKeys, hl, List.filter_cons, hsp, ih hnd']
      | bool b =>
        have hsp : shouldPatch fs n = false := by simp [shouldPatch, hl]
        simp [patchKeys, hl, List.filter_cons, hsp, ih hnd']
      | num mm =>
        have hsp : shouldPatch fs n = false := by simp [shouldPatch, hl]
        simp [patchKeys, hl, List.filter_cons, hsp, ih hnd']
      | str s =>
        have hsp : shouldPatch fs n = false := by simp [shouldPatch, hl]
        simp [patchKeys, hl, List.filter_cons, hsp, ih hnd']
      | arr xs =>
        have hsp : shouldPatch fs n = false := by simp [shouldPatch, hl]
        simp [patchKeys, hl, List.filter_cons, hsp, ih hnd']

theorem patchKeys_id {ns : List String} {fs : List (String × Json)}
    (h : ∀ n ∈ ns, shouldPatch fs n = false) : patchKeys ns fs = (fs, []) := by
  induction ns with
  | nil => rfl
  | cons n ns ih =>
    have hn := h n (List.mem_cons_self n ns)
    have htail : ∀ m ∈ ns, shouldPatch fs m = false :=
      fun m hm => h m (List.mem_cons_of_mem _ hm)
    cases hl : lookup? fs n with
    | none => simp [patchKeys, hl, ih htail]
    | some v =>
      cases v with
      | obj g =>
        have hc : condVal (lookup? g "additionalProperties") = false := by
          simpa [shouldPatch, hl] using hn
        simp [patchKeys, hl, hc, ih htail]
      | null => simp [patchKeys, hl, ih htail]
      | bool b => simp [patchKeys, hl, ih htail]
      | num mm => simp [patchKeys, hl, ih htail]
      | str s => simp [patchKeys, hl, ih htail]
      | arr xs => simp [patchKeys, hl, ih htail]

theorem shouldPatch_patchKeys {ns : List String} {fs : List (String × Json)}
    (hnd : ns.Nodup) {n : String} (hn : n ∈ ns) :
    shouldPatch (patchKeys ns fs).1 n = false := by
  have h4 := @lookup_patchKeys_mem _ fs _ hnd hn
  cases hl : lookup? fs n with
  | none =>
    rw [hl] at h4
    simp [shouldPatch, h4]
  | some v =>
    cases v with
    | obj g =>
      rw [hl] at h4
      dsimp only at h4
      by_cases hc : condVal (lookup? g "additionalProperties") = true
      · rw [if_pos hc] at h4
        simp [shouldPatch, h4, patchEntry, lookup_eraseKey_self, condVal]
      · rw [if_neg hc] at h4
        simp only [shouldPatch, h4]
        exact Bool.eq_false_iff.mpr hc
    | null => rw [hl] at h4; simp [shouldPatch, h4]
    | bool b => rw [hl] at h4; simp [shouldPatch, h4]
    | num mm => rw [hl] at h4; simp [shouldPatch, h4]
    | str s => rw [hl] at h4; simp [shouldPatch, h4]
    | arr xs => rw [hl] at h4; simp [shouldPatch, h4]

theorem entriesOk_patchKeys {ns : List String} {fs : List (String × Json)}
    (hnd : ns.Nodup) (hok : entriesOk ns fs = true) :
    entriesOk ns (patchKeys ns fs).1 = true := by
  rw [entriesOk, List.all_eq_true]
  intro n hn
  have h4 := @lookup_patchKeys_mem _ fs _ hnd hn
  have hent : entryOk fs n = true := by
    rw [entriesOk, List.all_eq_true] at hok
    exact hok n hn
  cases hl : lookup? fs n with
  | none =>
    rw [hl] at h4
    simp [entryOk, h4]
  | some v =>
    cases v with
    | obj g =>
      rw [hl] at h4
      simp [entryOk, h4]
    | null => simp [entryOk, hl] at hent
    | bool b => simp [entryOk, hl] at hent
    | num mm => simp [entryOk, hl] at hent
    | str s => simp [entryOk, hl] at hent
    | arr xs => simp [entryOk, hl] at hent

/-! ### Top-level characterization of `patch_spec` -/

theorem SCHEMAS_TO_PATCH_nodup : SCHEMAS_TO_PATCH.Nodup := by decide

theorem patch_spec_nonobj_root {s : Json} (h : s.isObj = false) :
    patch_spec s = Except.error PyErr.attributeError := by
  cases s <;> simp_all [patch_spec, pyGetD, Json.isObj]

theorem patch_spec_badComponents {sfs : List (String × Json)} {v : Json}
    (hc : lookup? sfs "components" = some v) (hv : v.isObj = false) :
    patch_spec (Json.obj sfs) = Except.error PyErr.attributeError := by
  have h1 : pyGetD (Json.obj sfs) "components" (Json.obj []) = Except.ok v := by
    simp [pyGetD, hc]
  have h2 : pyGetD v "schemas" (Json.obj []) = Except.error PyErr.attributeError := by
    cases v <;> simp_all [pyGetD, Json.isObj]
  simp [patch_spec, h1, h2]

theorem patch_spec_noComponents {sfs : List (String × Json)}
    (hc : lookup? sfs "components" = none) :
    patch_spec (Json.obj sfs) =
      Except.ok
        { newSpec := Json.obj sfs
          patched := []
          output := "No schemas needed patching"
          ret := none } := by
  have h1 : pyGetD (Json.obj sfs) "components" (Json.obj []) = Except.ok (Json.obj []) := by
    simp [pyGetD, hc]
  have h2 : pyGetD (Json.obj []) "schemas" (Json.obj []) = Except.ok (Json.obj []) := by
    simp [pyGetD, lookup?]
  have h3 : runNames SCHEMAS_TO_PATCH (Json.obj []) = Except.ok (Json.obj [], []) := rfl
  have h4 : writeBack (Json.obj sfs) (Json.obj []) = Json.obj sfs := by
    simp [writeBack, hc]
  simp [patch_spec, h1, h2, h3, h4, summary]

theorem patch_spec_noSchemas {sfs c : List (String × Json)}
    (hc : lookup? sfs "components" = some (Json.obj c))
    (hs : lookup? c "schemas" = none) :
    patch_spec (Json.obj sfs) =
      Except.ok
        { newSpec := Json.obj sfs
          patched := []
          output := "No schemas needed patching"
          ret := none } := by
  have h1 : pyGetD (Json.obj sfs) "components" (Json.obj []) = Except.ok (Json.obj c) := by
    simp [pyGetD, hc]
  have h2 : pyGetD (Json.obj c) "schemas" (Json.obj []) = Except.ok (Json.obj []) := by
    simp [pyGetD, hs]
  have h3 : runNames SCHEMAS_TO_PATCH (Json.obj []) = Except.ok (Json.obj [], []) := rfl
  have h4 : writeBack (Json.obj sfs) (Json.obj []) = Json.obj sfs := by
    simp [writeBack, hc, hs]
  simp [patch_spec, h1, h2, h3, h4, summary]

theorem patch_spec_chain {sfs c fs : List (String × Json)}
    (hc : lookup? sfs "components" = some (Json.obj c))
    (hs : lookup? c "schemas" = some (Json.obj fs))
    (hok : entriesOk SCHEMAS_TO_PATCH fs = true) :
    patch_spec (Json.obj sfs) =
      Except.ok
        { newSpec := Json.obj (setKey sfs "components" (Json.obj (setKey c "schemas"
            (Json.obj (patchKeys SCHEMAS_TO_PATCH fs).1))))
          patched := (patchKeys SCHEMAS_TO_PATCH fs).2
          output := summary (patchKeys SCHEMAS_TO_PATCH fs).2
          ret := none } := by
  have h1 : pyGetD (Json.obj sfs) "components" (Json.obj []) = Except.ok (Json.obj c) := by
    simp [pyGetD, hc]
  have h2 : pyGetD (Json.obj c) "schemas" (Json.obj []) = Except.ok (Json.obj fs) := by
    simp [pyGetD, hs]
  have h3 := runNames_ok SCHEMAS_TO_PATCH fs hok
  simp [patch_spec, h1, h2, h3, writeBack, hc, hs]

theorem patch_spec_chain_err {sfs c fs : List (String × Json)}
    (hc : lookup? sfs "components" = some (Json.obj c))
    (hs : lookup? c "schemas" = some (Json.obj fs))
    (hok : entriesOk SCHEMAS_TO_PATCH fs = false) :
    patch_spec (Json.obj sfs) = Except.error PyErr.attributeError := by
  have h1 : pyGetD (Json.obj sfs) "components" (Json.obj []) = Except.ok (Json.obj c) := by
    simp [pyGetD, hc]
  have h2 : pyGetD (Json.obj c) "schemas" (Json.obj []) = Except.ok (Json.obj fs) := by
    simp [pyGetD, hs]
  have h3 := runNames_err SCHEMAS_TO_PATCH fs hok
  simp [patch_spec, h1, h2, h3]

theorem patch_spec_schemas_err {sfs c : List (String × Json)} {v : Json} {e : PyErr}
    (hc : lookup? sfs "components" = some (Json.obj c))
    (hs : lookup? c "schemas" = some v)
    (hr : runNames SCHEMAS_TO_PATCH v = Except.error e) :
    patch_spec (Json.obj sfs) = Except.error e := by
  have h1 : pyGetD (Json.obj sfs) "components" (Json.obj []) = Except.ok (Json.obj c) := by
    simp [pyGetD, hc]
  have h2 : pyGetD (Json.obj c) "schemas" (Json.obj []) = Except.ok v := by
    simp [pyGetD, hs]
  simp [patch_spec, h1, h2, hr]

theorem patch_spec_schemas_nonobj_ok {sfs c : List (String × Json)} {v : Json}
    {out : Json × List String}
    (hc : lookup? sfs "components" = some (Json.obj c))
    (hs : lookup? c "schemas" = some v) (hv : v.isObj = false)
    (hr : runNames SCHEMAS_TO_PATCH v = Except.ok out) :
    patch_spec (Json.obj sfs) =
      Except.ok
        { newSpec := Json.obj sfs
          patched := []
          output := "No schemas needed patching"
          ret := none } := by
  have hout := runNames_nonobj hv hr
  rw [hout] at hr
  have h1 : pyGetD (Json.obj sfs) "components" (Json.obj []) = Except.ok (Json.obj c) := by
    simp [pyGetD, hc]
  have h2 : pyGetD (Json.obj c) "schemas" (Json.obj []) = Except.ok v := by
    simp [pyGetD, hs]
  have h4 : writeBack (Json.obj sfs) v = Json.obj sfs := by
    simp [writeBack, hc, hs, setKey_self hs, setKey_self hc]
  simp [patch_spec, h1, h2, hr, h4, summary]

theorem patchOne_noniter {v : Json} (m : String)
    (hv : v = Json.null ∨ (∃ n, v = Json.num n) ∨ ∃ b, v = Json.bool b) :
    patchOne v m = Except.error PyErr.typeError := by
  rcases hv with h | ⟨n, h⟩ | ⟨b, h⟩ <;> subst h <;> simp [patchOne, pyContains]

theorem runNames_allow_noniter {v : Json}
    (hv : v = Json.null ∨ (∃ n, v = Json.num n) ∨ ∃ b, v = Json.bool b) :
    runNames SCHEMAS_TO_PATCH v = Except.error PyErr.typeError := by
  rw [SCHEMAS_TO_PATCH]
  exact runNames_cons_err (patchOne_noniter _ hv)

/-- Success inversion: a successful `patch_spec` run either changed
nothing (and reported no patches), or went through an object-valued
`components.schemas` chain whose allow-listed entries were all objects,
and produced exactly the `patchKeys` rewrite of that chain. -/
theorem patch_ok_inv {spec : Json} {r : PatchResult}
    (hr : patch_spec spec = Except.ok r) :
    r = { newSpec := spec, patched := [],
          output := "No schemas needed patching", ret := none } ∨
    ∃ sfs c fs, spec = Json.obj sfs ∧
      lookup? sfs "components" = some (Json.obj c) ∧
      lookup? c "schemas" = some (Json.obj fs) ∧
      entriesOk SCHEMAS_TO_PATCH fs = true ∧
      r = { newSpec := Json.obj (setKey sfs "components" (Json.obj (setKey c "schemas"
              (Json.obj (patchKeys SCHEMAS_TO_PATCH fs).1))))
            patched := (patchKeys SCHEMAS_TO_PATCH fs).2
            output := summary (patchKeys SCHEMAS_TO_PATCH fs).2
            ret := none } := by
  cases spec with
  | obj sfs =>
    cases hcl : lookup? sfs "components" with
    | none =>
      left
      rw [patch_spec_noComponents hcl] at hr
      exact (Except.ok.inj hr).symm
    | some v =>
      cases v with
      | obj c =>
        cases hsl : lookup? c "schemas" with
        | none =>
          left
          rw [patch_spec_noSchemas hcl hsl] at hr
          exact (Except.ok.inj hr).symm
        | some w =>
          cases w with
          | obj fs =>
            cases hok : entriesOk SCHEMAS_TO_PATCH fs with
            | false =>
              rw [patch_spec_chain_err hcl hsl hok] at hr
              exact absurd hr (by simp)
            | true =>
              right
              refine ⟨sfs, c, fs, rfl, hcl, hsl, hok, ?_⟩
              rw [patch_spec_chain hcl hsl hok] at hr
              exact (Except.ok.inj hr).symm
          | null =>
            rw [patch_spec_schemas_err hcl hsl (runNames_allow_noniter (Or.inl rfl))] at hr
            exact absurd hr (by simp)
          | num n =>
            rw [patch_spec_schemas_err hcl hsl
              (runNames_allow_noniter (Or.inr (Or.inl ⟨n, rfl⟩)))] at hr
            exact absurd hr (by simp)
          | bool b =>
            rw [patch_spec_schemas_err hcl hsl
              (runNames_allow_noniter (Or.inr (Or.inr ⟨b, rfl⟩)))] at hr
            exact absurd hr (by simp)
          | str s =>
            cases hrn : runNames SCHEMAS_TO_PATCH (Json.str s) with
            | error e =>
              rw [patch_spec_schemas_err hcl hsl hrn] at hr
              exact absurd hr (by simp)
            | ok out =>
              left
              rw [patch_spec_schemas_nonobj_ok hcl hsl rfl hrn] at hr
              exact (Except.ok.inj hr).symm
          | arr xs =>
            cases hrn : runNames SCHEMAS_TO_PATCH (Json.arr xs) with
            | error e =>
              rw [patch_spec_schemas_err hcl hsl hrn] at hr
              exact absurd hr (by simp)
            | ok out =>
              left
              rw [patch_spec_schemas_nonobj_ok hcl hsl rfl hrn] at hr
              exact (Except.ok.inj hr).symm
      | null =>
        rw [patch_spec_badComponents hcl rfl] at hr
        exact absurd hr (by simp)
      | bool b =>
        rw [patch_spec_badComponents hcl rfl] at hr
        exact absurd hr (by simp)
      | num n =>
        rw [patch_spec_badComponents hcl rfl] at hr
        exact absurd hr (by simp)
      | str s =>
        rw [patch_spec_badComponents hcl rfl] at hr
        exact absurd hr (by simp)
      | arr xs =>
        rw [patch_spec_badComponents hcl rfl] at hr
        exact absurd hr (by simp)
  | null =>
    rw [patch_spec_nonobj_root (s := Json.null) rfl] at hr
    exact absurd hr (by simp)
  | bool b =>
    rw [patch_spec_nonobj_root (s := Json.bool b) rfl] at hr
    exact absurd hr (by simp)
  | num n =>
    rw [patch_spec_nonobj_root (s := Json.num n) rfl] at hr
    exact absurd hr (by simp)
  | str s =>
    rw [patch_spec_nonobj_root (s := Json.str s) rfl] at hr
    exact absurd hr (by simp)
  | arr xs =>
    rw [patch_spec_nonobj_root (s := Json.arr xs) rfl] at hr
    exact absurd hr (by simp)

theorem condVal_eq_true_iff {o : Option Json} :
    condVal o = true ↔
      (o = some (Json.bool false) ∨ o = some (Json.num 0)) := by
  cases o with
  | none => simp [condVal]
  | some v =>
    cases v with
    | bool b => cases b <;> simp [condVal, pyEqFalse]
    | num n => simp [condVal, pyEqFalse]
    | null => simp [condVal, pyEqFalse]
    | str s => simp [condVal, pyEqFalse]
    | arr xs => simp [condVal, pyEqFalse]
    | obj fs => simp [condVal, pyEqFalse]

theorem runNames_ok_of_noContain {ns : List String} {v : Json}
    (h : ∀ n ∈ ns, pyContains n v = Except.ok false) :
    runNames ns v = Except.ok (v, []) := by
  induction ns with
  | nil => rfl
  | cons n ns ih =>
    have hp : patchOne v n = Except.ok (v, false) := by
      rw [patchOne, h n (List.mem_cons_self n ns)]
    rw [runNames_cons_step hp, ih (fun m hm => h m (List.mem_cons_of_mem _ hm))]
    rfl

/-- C6: if `components` is absent, or `components` is an object without a
`schemas` key, or `components.schemas` is an object containing none of
the allow-listed names, then `patch_spec` completes successfully with
zero patches, writes the document back structurally unchanged, and
prints the fixed no-patch message. -/
theorem C6_missing_tolerated {sfs : List (String × Json)}
    (h : lookup? sfs "components" = none ∨
      (∃ c, lookup? sfs "components" = some (Json.obj c) ∧
        lookup? c "schemas" = none) ∨
      (∃ c fs, lookup? sfs "components" = some (Json.obj c) ∧
        lookup? c "schemas" = some (Json.obj fs) ∧
        ∀ n ∈ SCHEMAS_TO_PATCH, lookup? fs n = none)) :
    patch_spec (Json.obj sfs) =
      Except.ok { newSpec := Json.obj sfs, patched := [],
                  output := "No schemas needed patching", ret := none } := by
  rcases h with h | ⟨c, hc, hs⟩ | ⟨c, fs, hc, hs, hnone⟩
  · exact patch_spec_noComponents h
  · exact patch_spec_noSchemas hc hs
  · have hok : entriesOk SCHEMAS_TO_PATCH fs = true := by
      rw [entriesOk, List.all_eq_true]
      intro n hn
      simp [entryOk, hnone n hn]
    have hsp : ∀ n ∈ SCHEMAS_TO_PATCH, shouldPatch fs n = false := by
      intro n hn
      simp [shouldPatch, hnone n hn]
    have hid := patchKeys_id hsp
    rw [patch_spec_chain hc hs hok, hid]
    simp [setKey_self hs, setKey_self hc, summary]

/-- C6 witness: a document with no `components` key at all. -/
theorem C6_missing_tolerated_witness :
    patch_spec (Json.obj plainRoot) =
      Except.ok { newSpec := Json.obj plainRoot, patched := [],
                  output := "No schemas needed patching", ret := none } :=
  C6_missing_tolerated (Or.inl rfl)

/-- C7 counterexample: with `components` bound to the number `5` the
patcher raises `AttributeError` (`int` has no `.get`), which contradicts
the claim that a malformed `components` entry is silently ignored and
the run completes without error. -/
theorem C7_counterexample :
    patch_spec (Json.obj badComponentsRoot) =
      Except.error PyErr.attributeError := rfl

/-- C7 (amended): a non-object `components` raises `AttributeError`; a
`components.schemas` valued `null`, number or boolean raises `TypeError`
(not iterable); only a string or array `schemas` value that contains no
allow-listed name (as substring, resp. as string element) is silently
tolerated, completing with zero patches and an unchanged document. -/
theorem C7_amended :
    (∀ (sfs : List (String × Json)) (v : Json),
      lookup? sfs "components" = some v → v.isObj = false →
      patch_spec (Json.obj sfs) = Except.error PyErr.attributeError) ∧
    (∀ (sfs c : List (String × Json)) (v : Json),
      lookup? sfs "components" = some (Json.obj c) →
      lookup? c "schemas" = some v →
      (v = Json.null ∨ (∃ n, v = Json.num n) ∨ ∃ b, v = Json.bool b) →
      patch_spec (Json.obj sfs) = Except.error PyErr.typeError) ∧
    (∀ (sfs c : List (String × Json)) (s : String),
      lookup? sfs "components" = some (Json.obj c) →
      lookup? c "schemas" = some (Json.str s) →
      (∀ n ∈ SCHEMAS_TO_PATCH, strIn n s = false) →
      patch_spec (Json.obj sfs) =
        Except.ok { newSpec := Json.obj sfs, patched := [],
                    output := "No schemas needed patching", ret := none }) ∧
    (∀ (sfs c : List (String × Json)) (xs : List Json),
      lookup? sfs "components" = some (Json.obj c) →
      lookup? c "schemas" = some (Json.arr xs) →
      (∀ n ∈ SCHEMAS_TO_PATCH, listHasStr n xs = false) →
      patch_spec (Json.obj sfs) =
        Except.ok { newSpec := Json.obj sfs, patched := [],
                    output := "No schemas needed patching", ret := none }) := by
  refine ⟨fun sfs v hc hv => patch_spec_badComponents hc hv,
    fun sfs c v hc hs hv =>
      patch_spec_schemas_err hc hs (runNames_allow_noniter hv),
    fun sfs c s hc hs hstr => ?_, fun sfs c xs hc hs harr => ?_⟩
  · refine patch_spec_schemas_nonobj_ok hc hs rfl
      (runNames_ok_of_noContain (fun n hn => ?_))
    simp [pyContains, hstr n hn]
  · refine patch_spec_schemas_nonobj_ok hc hs rfl
      (runNames_ok_of_noContain (fun n hn => ?_))
    simp [pyContains, harr n hn]

/-- C7 witness: the four behaviours at concrete documents. -/
theorem C7_amended_witness :
    patch_spec (Json.obj badComponentsRoot) = Except.error PyErr.attributeError ∧
    patch_spec (Json.obj badSchemasNullRoot) = Except.error PyErr.typeError ∧
    patch_spec (Json.obj strSchemasRoot) =
      Except.ok { newSpec := Json.obj strSchemasRoot, patched := [],
                  output := "No schemas needed patching", ret := none } ∧
    patch_spec (Json.obj arrSchemasRoot) =
      Except.ok { newSpec := Json.obj arrSchemasRoot, patched := [],
                  output := "No schemas needed patching", ret := none } :=
  ⟨C7_amended.1 badComponentsRoot (Json.num 5) rfl rfl,
    C7_amended.2.1 badSchemasNullRoot [("schemas", Json.null)] Json.null rfl rfl
      (Or.inl rfl),
    C7_amended.2.2.1 strSchemasRoot [("schemas", Json.str "hello")] "hello" rfl rfl
      (by decide),
    C7_amended.2.2.2 arrSchemasRoot [("schemas", Json.arr [Json.str "Pet"])]
      [Json.str "Pet"] rfl rfl (by decide)⟩

/-- C8: with an argument count other than exactly one (`sys.argv` length
other than 2), the process prints the usage line, exits with status 1,
and never touches the file. -/
theorem C8_usage {argv : List String} (file : Except LoadErr Json)
    (h : argv.length ≠ 2) :
    mainModel argv file = (file, MainResult.usage usageMsg 1) := by
  simp [mainModel, h]

/-- C8 witness: invocation with zero extra arguments. -/
theorem C8_usage_witness :
    mainModel ["patch-openapi-spec.py"] (Except.ok scenarioDoc) =
      (Except.ok scenarioDoc, MainResult.usage usageMsg 1) :=
  C8_usage _ (by decide)

/-- C9: on any load failure (missing, unreadable or unparseable file)
the process ends in an uncaught failure with a non-zero exit status and
the file keeps its previous contents: the write happens only after a
full successful parse. -/
theorem C9_load_failure (e : LoadErr) :
    runProcess (Except.error e) = (Except.error e, ProcOutcome.loadFailure) ∧
    exitCode ProcOutcome.loadFailure ≠ 0 :=
  ⟨rfl, by decide⟩

/-- C10: an allow-listed name bound to a non-object entry is not
skipped: `schema.get` raises `AttributeError`, the run fails and the
file is not rewritten. -/
theorem C10_nonobj_entry {sfs c fs : List (String × Json)} {n : String} {v : Json}
    (hc : lookup? sfs "components" = some (Json.obj c))
    (hs : lookup? c "schemas" = some (Json.obj fs))
    (hn : n ∈ SCHEMAS_TO_PATCH)
    (hv : lookup? fs n = some v) (hvo : v.isObj = false) :
    patch_spec (Json.obj sfs) = Except.error PyErr.attributeError ∧
    runProcess (Except.ok (Json.obj sfs)) =
      (Except.ok (Json.obj sfs), ProcOutcome.patchError PyErr.attributeError) := by
  have hok : entriesOk SCHEMAS_TO_PATCH fs = false := by
    rw [entriesOk]
    apply List.all_eq_false.mpr
    exact ⟨n, hn, by cases v <;> simp_all [entryOk, Json.isObj]⟩
  have h1 := patch_spec_chain_err hc hs hok
  exact ⟨h1, by simp [runProcess, h1]⟩

/-- C10 witness: `CardDetailsInput` bound to the boolean `true`. -/
theorem C10_nonobj_entry_witness :
    patch_spec (Json.obj badEntryRoot) = Except.error PyErr.attributeError ∧
    runProcess (Except.ok (Json.obj badEntryRoot)) =
      (Except.ok (Json.obj badEntryRoot), ProcOutcome.patchError PyErr.attributeError) :=
  @C10_nonobj_entry badEntryRoot
    [("schemas", Json.obj [("CardDetailsInput", Json.bool true)])]
    [("CardDetailsInput", Json.bool true)] "CardDetailsInput" (Json.bool true)
    rfl rfl (by decide) rfl rfl

/-- C1 counterexample: `"additionalProperties": 0` is not the boolean
`false`, yet the patcher removes it and reports the schema as patched,
because Python's `schema.get("additionalProperties") == False` is true
for the number `0`. This contradicts the claim that any non-boolean
value leaves the entry untouched. -/
theorem C1_counterexample :
    getSchemaField zeroDoc "CardDetailsInput" "additionalProperties" =
      some (Json.num 0) ∧
    patch_spec zeroDoc = Except.ok zeroResult ∧
    getSchemaField zeroDocPatched "CardDetailsInput" "additionalProperties" =
      none ∧
    zeroResult.patched = ["CardDetailsInput"] :=
  ⟨rfl, rfl, rfl, rfl⟩

/-- C1 (amended): for every document with an object-valued
`components.schemas` chain and every allow-listed name bound to an
object entry, a successful run removes the entry's
`additionalProperties` field if and only if the field is present and its
value compares Python-equal to `False` - that is, it is the boolean
`false` or the number `0`; any other value (missing field, `true`, the
string representation of false, a non-zero number, or any other
non-boolean value) leaves the entry untouched. -/
theorem C1_conditional_mutation {sfs c fs g : List (String × Json)}
    {name : String} {r : PatchResult}
    (hc : lookup? sfs "components" = some (Json.obj c))
    (hs : lookup? c "schemas" = some (Json.obj fs))
    (hname : name ∈ SCHEMAS_TO_PATCH)
    (hg : lookup? fs name = some (Json.obj g))
    (hr : patch_spec (Json.obj sfs) = Except.ok r) :
    ((lookup? g "additionalProperties" = some (Json.bool false) ∨
      lookup? g "additionalProperties" = some (Json.num 0)) →
        getSchema r.newSpec name =
          some (Json.obj (eraseKey g "additionalProperties")) ∧
        getSchemaField r.newSpec name "additionalProperties" = none) ∧
    (¬(lookup? g "additionalProperties" = some (Json.bool false) ∨
       lookup? g "additionalProperties" = some (Json.num 0)) →
        getSchema r.newSpec name = some (Json.obj g)) := by
  cases hok : entriesOk SCHEMAS_TO_PATCH fs with
  | false =>
    rw [patch_spec_chain_err hc hs hok] at hr
    exact absurd hr (by simp)
  | true =>
    rw [patch_spec_chain hc hs hok] at hr
    have hres := Except.ok.inj hr
    rw [← hres]
    dsimp only
    have hcsome : (lookup? sfs "components").isSome := by simp [hc]
    have hssome : (lookup? c "schemas").isSome := by simp [hs]
    have hmain : getSchema (Json.obj (setKey sfs "components"
        (Json.obj (setKey c "schemas"
          (Json.obj (patchKeys SCHEMAS_TO_PATCH fs).1))))) name =
        some (Json.obj (if condVal (lookup? g "additionalProperties")
          then patchEntry g else g)) := by
      simp only [getSchema, getComponentsField, getField,
        lookup_setKey_self hcsome, lookup_setKey_self hssome]
      have h4 := @lookup_patchKeys_mem SCHEMAS_TO_PATCH fs name
        SCHEMAS_TO_PATCH_nodup hname
      rw [hg] at h4
      dsimp only at h4
      exact h4
    constructor
    · intro hd
      have hcv : condVal (lookup? g "additionalProperties") = true :=
        condVal_eq_true_iff.mpr hd
      rw [if_pos hcv] at hmain
      refine ⟨hmain, ?_⟩
      simp [getSchemaField, hmain, patchEntry, lookup_eraseKey_self]
    · intro hd
      have hcv : condVal (lookup? g "additionalProperties") = false :=
        Bool.eq_false_iff.mpr (fun hx => hd (condVal_eq_true_iff.mp hx))
      rw [hcv] at hmain
      rw [if_neg (by simp)] at hmain
      exact hmain

/-- C1 witness: on the `zeroDoc` chain the condition holds (value `0`)
and the field is removed. -/
theorem C1_conditional_mutation_witness :
    getSchema zeroResult.newSpec "CardDetailsInput" =
      some (Json.obj (eraseKey zeroEntry "additionalProperties")) ∧
    getSchemaField zeroResult.newSpec "CardDetailsInput" "additionalProperties" =
      none :=
  (@C1_conditional_mutation zeroRoot zeroComponents zeroSchemas zeroEntry
    "CardDetailsInput" zeroResult rfl rfl (by decide) rfl rfl).1 (Or.inr rfl)

/-- C2: idempotence. If a run succeeds, running `patch_spec` again on
the document it wrote produces the very same document, reports zero
patched schemas, and prints the no-patch message; hence the serialized
file contents of the second run equal those of the first. -/
theorem C2_idempotent {spec : Json} {r : PatchResult}
    (hr : patch_spec spec = Except.ok r) :
    patch_spec r.newSpec =
      Except.ok { newSpec := r.newSpec, patched := [],
                  output := "No schemas needed patching", ret := none } := by
  rcases patch_ok_inv hr with h | ⟨sfs, c, fs, hspec, hc, hs, hok, h⟩
  · rw [h] at hr
    rw [h]
    simpa using hr
  · subst hspec
    rw [h]
    dsimp only
    have hcsome : (lookup? sfs "components").isSome := by simp [hc]
    have hssome : (lookup? c "schemas").isSome := by simp [hs]
    have hc2 : lookup? (setKey sfs "components" (Json.obj (setKey c "schemas"
        (Json.obj (patchKeys SCHEMAS_TO_PATCH fs).1)))) "components" =
        some (Json.obj (setKey c "schemas"
          (Json.obj (patchKeys SCHEMAS_TO_PATCH fs).1))) :=
      lookup_setKey_self hcsome _
    have hs2 : lookup? (setKey c "schemas"
        (Json.obj (patchKeys SCHEMAS_TO_PATCH fs).1)) "schemas" =
        some (Json.obj (patchKeys SCHEMAS_TO_PATCH fs).1) :=
      lookup_setKey_self hssome _
    have hok2 : entriesOk SCHEMAS_TO_PATCH (patchKeys SCHEMAS_TO_PATCH fs).1 = true :=
      entriesOk_patchKeys SCHEMAS_TO_PATCH_nodup hok
    have hall : ∀ n ∈ SCHEMAS_TO_PATCH,
        shouldPatch (patchKeys SCHEMAS_TO_PATCH fs).1 n = false :=
      fun n hn => shouldPatch_patchKeys SCHEMAS_TO_PATCH_nodup hn
    have hid : patchKeys SCHEMAS_TO_PATCH (patchKeys SCHEMAS_TO_PATCH fs).1 =
        ((patchKeys SCHEMAS_TO_PATCH fs).1, []) := patchKeys_id hall
    rw [patch_spec_chain hc2 hs2 hok2, hid]
    simp [setKey_self hs2, setKey_self hc2, summary]

/-- C2 witness: the second run on the already patched scenario document
changes nothing and reports no patches. -/
theorem C2_idempotent_witness :
    patch_spec scenarioResult.newSpec =
      Except.ok { newSpec := scenarioResult.newSpec, patched := [],
                  output := "No schemas needed patching", ret := none } :=
  @C2_idempotent scenarioDoc scenarioResult rfl

/-- C3 counterexample: on the worked scenario document the function
patches one schema, but its Python return value is `None` (the body has
no `return` statement and is annotated `-> None`), not the list of
patched names; that list reaches the caller only through the printed
summary. -/
theorem C3_counterexample :
    patch_spec scenarioDoc = Except.ok scenarioResult ∧
    scenarioResult.patched = ["CardDetailsInput"] ∧
    scenarioResult.ret = none ∧
    scenarioResult.ret ≠ some scenarioResult.patched := by
  refine ⟨rfl, rfl, rfl, ?_⟩
  simp [scenarioResult]

/-- C3 (amended): `patch_spec` returns no value (Python `None`) on every
successful run; the patched names are reported only through the printed
summary line (and the file side effect). -/
theorem C3_returns_none {spec : Json} {r : PatchResult}
    (hr : patch_spec spec = Except.ok r) :
    r.ret = none ∧ r.output = summary r.patched := by
  rcases patch_ok_inv hr with h | ⟨sfs, c, fs, hspec, hc, hs, hok, h⟩ <;>
    rw [h] <;> exact ⟨rfl, rfl⟩

/-- C3 witness: the scenario run returns `None` and prints the summary. -/
theorem C3_returns_none_witness :
    scenarioResult.ret = none ∧
    scenarioResult.output = summary scenarioResult.patched :=
  @C3_returns_none scenarioDoc scenarioResult rfl

/-- C4: frame property of a successful run. Every root field other than
`components` is unchanged; every `components` field other than `schemas`
is unchanged; every schema whose name is not in the allow-list is left
entirely unaltered (even if its `additionalProperties` is `false`); and
inside every schema entry every field other than `additionalProperties`
is preserved. -/
theorem C4_frame {spec : Json} {r : PatchResult}
    (hr : patch_spec spec = Except.ok r) :
    (∀ k, k ≠ "components" → getField r.newSpec k = getField spec k) ∧
    (∀ k, k ≠ "schemas" →
      getComponentsField r.newSpec k = getComponentsField spec k) ∧
    (∀ n, n ∉ SCHEMAS_TO_PATCH → getSchema r.newSpec n = getSchema spec n) ∧
    (∀ n k, k ≠ "additionalProperties" →
      getSchemaField r.newSpec n k = getSchemaField spec n k) := by
  rcases patch_ok_inv hr with h | ⟨sfs, c, fs, hspec, hc, hs, hok, h⟩
  · rw [h]
    exact ⟨fun k _ => rfl, fun k _ => rfl, fun n _ => rfl, fun n k _ => rfl⟩
  · subst hspec
    rw [h]
    dsimp only
    have hcsome : (lookup? sfs "components").isSome := by simp [hc]
    have hssome : (lookup? c "schemas").isSome := by simp [hs]
    have hnc : lookup? (setKey sfs "components" (Json.obj (setKey c "schemas"
        (Json.obj (patchKeys SCHEMAS_TO_PATCH fs).1)))) "components" =
        some (Json.obj (setKey c "schemas"
          (Json.obj (patchKeys SCHEMAS_TO_PATCH fs).1))) :=
      lookup_setKey_self hcsome _
    have hns : lookup? (setKey c "schemas"
        (Json.obj (patchKeys SCHEMAS_TO_PATCH fs).1)) "schemas" =
        some (Json.obj (patchKeys SCHEMAS_TO_PATCH fs).1) :=
      lookup_setKey_self hssome _
    refine ⟨?_, ?_, ?_, ?_⟩
    · intro k hk
      simp only [getField]
      exact lookup_setKey_ne _ hk
    · intro k hk
      simp only [getComponentsField, getField, hnc, hc]
      exact lookup_setKey_ne _ hk
    · intro n hn
      simp only [getSchema, getComponentsField, getField, hnc, hns, hc, hs]
      exact lookup_patchKeys_notMem hn
    · intro n k hk
      simp only [getSchemaField, getSchema, getComponentsField, getField,
        hnc, hns, hc, hs]
      by_cases hn : n ∈ SCHEMAS_TO_PATCH
      · have h4 := @lookup_patchKeys_mem SCHEMAS_TO_PATCH fs n
          SCHEMAS_TO_PATCH_nodup hn
        cases hl : lookup? fs n with
        | none =>
          rw [hl] at h4
          dsimp only at h4
          rw [h4]
        | some v =>
          cases v with
          | obj g =>
            rw [hl] at h4
            dsimp only at h4
            by_cases hcv : condVal (lookup? g "additionalProperties") = true
            · rw [if_pos hcv] at h4
              rw [h4]
              dsimp only
              simp only [patchEntry]
              exact lookup_eraseKey_ne hk
            · rw [if_neg hcv] at h4
              rw [h4]
          | null => rw [hl] at h4; dsimp only at h4; rw [h4]
          | bool b => rw [hl] at h4; dsimp only at h4; rw [h4]
          | num mm => rw [hl] at h4; dsimp only at h4; rw [h4]
          | str s => rw [hl] at h4; dsimp only at h4; rw [h4]
          | arr xs => rw [hl] at h4; dsimp only at h4; rw [h4]
      · rw [lookup_patchKeys_notMem hn]

/-- C4 witness: on the worked scenario, `type` is preserved inside the
patched entry and a non-allow-listed name is untouched. -/
theorem C4_frame_witness :
    getSchemaField scenarioResult.newSpec "CardDetailsInput" "type" =
      getSchemaField scenarioDoc "CardDetailsInput" "type" ∧
    getSchema scenarioResult.newSpec "UnrelatedSchema" =
      getSchema scenarioDoc "UnrelatedSchema" :=
  ⟨(@C4_frame scenarioDoc scenarioResult rfl).2.2.2 "CardDetailsInput" "type"
      (by decide),
    (@C4_frame scenarioDoc scenarioResult rfl).2.2.1 "UnrelatedSchema"
      (by decide)⟩

/-- C5: the printed line exactly reflects the mutations: when nothing
was patched the fixed message is printed; otherwise the line is
"Patched schemas: " followed by the comma-joined patched names; and the
patched list is exactly the sublist of the allow-list (hence in
allow-list order) of names whose `additionalProperties` field was
present before the run and absent after it. -/
theorem C5_reporting {spec : Json} {r : PatchResult}
    (hr : patch_spec spec = Except.ok r) :
    (r.patched = [] → r.output = "No schemas needed patching") ∧
    (r.patched ≠ [] →
      r.output = "Patched schemas: " ++ String.intercalate ", " r.patched) ∧
    r.patched = SCHEMAS_TO_PATCH.filter (fun n =>
      (getSchemaField spec n "additionalProperties").isSome &&
      !(getSchemaField r.newSpec n "additionalProperties").isSome) := by
  have hout : r.output = summary r.patched := by
    rcases patch_ok_inv hr with h | ⟨sfs, c, fs, hspec, hc, hs, hok, h⟩
    · rw [h]
      rfl
    · rw [h]
  refine ⟨?_, ?_, ?_⟩
  · intro hp
    rw [hout, hp]
    rfl
  · intro hp
    rw [hout]
    cases hl : r.patched with
    | nil => exact absurd hl hp
    | cons a as => simp [summary]
  · rcases patch_ok_inv hr with h | ⟨sfs, c, fs, hspec, hc, hs, hok, h⟩
    · rw [h]
      dsimp only
      simp [Bool.and_not_self]
      intro a _ hsome hnone
      simp [hnone] at hsome
    · subst hspec
      rw [h]
      dsimp only
      have hcsome : (lookup? sfs "components").isSome := by simp [hc]
      have hssome : (lookup? c "schemas").isSome := by simp [hs]
      have hnc : lookup? (setKey sfs "components" (Json.obj (setKey c "schemas"
          (Json.obj (patchKeys SCHEMAS_TO_PATCH fs).1)))) "components" =
          some (Json.obj (setKey c "schemas"
            (Json.obj (patchKeys SCHEMAS_TO_PATCH fs).1))) :=
        lookup_setKey_self hcsome _
      have hns : lookup? (setKey c "schemas"
          (Json.obj (patchKeys SCHEMAS_TO_PATCH fs).1)) "schemas" =
          some (Json.obj (patchKeys SCHEMAS_TO_PATCH fs).1) :=
        lookup_setKey_self hssome _
      rw [patched_patchKeys SCHEMAS_TO_PATCH_nodup]
      apply List.filter_congr
      intro n hn
      have hent : entryOk fs n = true := by
        rw [entriesOk, List.all_eq_true] at hok
        exact hok n hn
      have h4 := @lookup_patchKeys_mem SCHEMAS_TO_PATCH fs n
        SCHEMAS_TO_PATCH_nodup hn
      simp only [getSchemaField, getSchema, getComponentsField, getField,
        hnc, hns, hc, hs]
      cases hl : lookup? fs n with
      | none =>
        rw [hl] at h4
        dsimp only at h4
        simp [shouldPatch, hl, h4]
      | some v =>
        cases v with
        | obj g =>
          rw [hl] at h4
          dsimp only at h4
          by_cases hcv : condVal (lookup? g "additionalProperties") = true
          · rw [if_pos hcv] at h4
            have hbefore : (lookup? g "additionalProperties").isSome :=
              condVal_isSome hcv
            simp [shouldPatch, hl, hcv, h4, patchEntry,
              lookup_eraseKey_self, hbefore]
          · rw [if_neg hcv] at h4
            simp [shouldPatch, hl, h4, Bool.eq_false_iff.mpr hcv,
              Bool.and_not_self]
        | null => simp [entryOk, hl] at hent
        | bool b => simp [entryOk, hl] at hent
        | num mm => simp [entryOk, hl] at hent
        | str s => simp [entryOk, hl] at hent
        | arr xs => simp [entryOk, hl] at hent

/-- C5 witness: on the worked scenario the output is the comma-joined
list and the patched list matches the removed-field characterization. -/
theorem C5_reporting_witness :
    scenarioResult.output =
      "Patched schemas: " ++ String.intercalate ", " scenarioResult.patched ∧
    scenarioResult.patched = SCHEMAS_TO_PATCH.filter (fun n =>
      (getSchemaField scenarioDoc n "additionalProperties").isSome &&
      !(getSchemaField scenarioResult.newSpec n "additionalProperties").isSome) :=
  ⟨(@C5_reporting scenarioDoc scenarioResult rfl).2.1 (by decide),
    (@C5_reporting scenarioDoc scenarioResult rfl).2.2⟩

/-- C9 witness: a parse failure leaves the file unchanged. -/
theorem C9_load_failure_witness :
    runProcess (Except.error LoadErr.parseError) =
      (Except.error LoadErr.parseError, ProcOutcome.loadFailure) ∧
    exitCode ProcOutcome.loadFailure ≠ 0 :=
  C9_load_failure LoadErr.parseError
